import Mathlib

/-!
Verification of the knowhere plugin system against its specification.

The development shallowly embeds two parts of the repository:

1. `SimpleVectorIndex` (src/examples/simple_vector_plugin/src/simple_vector_index.h):
   the reference brute-force index. Machine floats are modelled as exact
   rationals (`ℚ`), `int64_t` row counts and dimensions as `ℕ`, and identifiers
   (which may be negative, e.g. the `-1` padding) as `ℤ`.

2. `PluginLoader` (src/include/knowhere/plugin/plugin_loader.h) and the status
   flow of `PluginFactory::LoadAndRegisterPlugins`
   (src/include/knowhere/plugin/plugin_factory.h): the loader state is a pair of
   association maps (path → loaded plugin, name → path) and every load/unload
   call additionally produces the list of boundary events it performs (dlclose,
   calls into module code, host-side deletes), so that ordering claims about
   the unload sequence can be settled.
-/

namespace KnowhereSpec

/-- Error causes of the SimpleVector index operations.  In the C++ source every
one of these is a `Status::invalid_args` / `Status::not_implemented` value
distinguished only by its message string; the constructors below correspond
one-to-one to the distinct return sites (and messages) in
simple_vector_index.h, so equality of a constructor models "fails with that
particular message". -/
inductive SvError where
  /-- message "dataset must have raw data" -/
  | noRawData
  /-- message "dimension mismatch: expected {}, got {}" -/
  | dimMismatch (expected got : ℕ)
  /-- message "id {} out of range [0, {})" (GetVectorByIds) -/
  | idOutOfRange (id : ℤ) (count : ℕ)
  /-- message "missing meta in binary set" / "missing vectors in binary set" -/
  | missingKey (key : String)
  /-- an ill-typed blob reached Json::parse / memcpy; the C++ would raise or
  read reinterpreted bytes, which the typed embedding does not model.  No
  theorem below exercises this constructor. -/
  | blobTypeUnmodeled
  /-- Status::not_implemented -/
  | notImplementedErr
deriving DecidableEq, Repr

/-- SimpleVectorConfig: the three validated fields `dim`, `metric_type`, `k`
(simple_vector_index.h lines 19-46). -/
structure SVConfig where
  dim : ℕ
  metric_type : String
  k : ℕ
deriving DecidableEq, Repr

/-- Mutable state of a `SimpleVectorIndex` instance: the flattened row-major
vector storage `vectors_`, `num_vectors_`, `dim_`, `metric_type_`
(simple_vector_index.h lines 356-361). -/
structure SVState where
  vectors : List ℚ
  num_vectors : ℕ
  dim : ℕ
  metric_type : String
deriving DecidableEq, Repr

/-- A default-constructed `SimpleVectorIndex` (member initialisers at
simple_vector_index.h lines 358-361). -/
def SVState.init : SVState := ⟨[], 0, 0, "L2"⟩

/-- Accessor `Count()` (simple_vector_index.h line 345). -/
def SVState.Count (st : SVState) : ℕ := st.num_vectors

/-- Accessor `Dim()` (simple_vector_index.h line 333). -/
def SVState.Dim (st : SVState) : ℕ := st.dim

/-- An input `DataSet` carrying a row count, a dimensionality and (optionally)
a raw row-major tensor; `HasRawData` is `tensor.isSome`. -/
structure DataSetIn where
  rows : ℕ
  dim : ℕ
  tensor : Option (List ℚ)
deriving DecidableEq, Repr

/-- Stored row `i`: the `dim_` floats starting at `vectors_.data() + i * dim_`
(simple_vector_index.h line 166). -/
def storedRow (st : SVState) (i : ℕ) : List ℚ :=
  (st.vectors.drop (i * st.dim)).take st.dim

/-- L2 branch of the per-candidate distance loop (simple_vector_index.h lines
168-173): the sum over dimensions of the squared difference. -/
def l2Distance (q v : List ℚ) : ℚ :=
  (List.zipWith (fun a b => (a - b) * (a - b)) q v).sum

/-- IP branch (simple_vector_index.h lines 174-179): the negated inner
product. -/
def ipDistance (q v : List ℚ) : ℚ :=
  -((List.zipWith (fun a b => a * b) q v).sum)

/-- Metric dispatch in Search: the string comparison at simple_vector_index.h
line 168 (anything other than "L2" takes the IP branch). -/
def metricDistance (metric : String) (q v : List ℚ) : ℚ :=
  if metric = "L2" then l2Distance q v else ipDistance q v

/-- The elementwise order on `(distance, index)` pairs used to rank candidates.
`std::partial_sort` at simple_vector_index.h line 186 compares
`std::pair<float, int64_t>` lexicographically with strict `<`; since all
candidate pairs carry distinct indices, the strict lexicographic order is
total on them, and sorting by its reflexive closure `pairLe` yields the same
unique ascending arrangement whose `k`-prefix `std::partial_sort` produces. -/
def pairLe (a b : ℚ × ℤ) : Prop :=
  a.1 < b.1 ∨ (a.1 = b.1 ∧ a.2 ≤ b.2)

instance : DecidableRel pairLe := fun a b =>
  inferInstanceAs (Decidable (a.1 < b.1 ∨ (a.1 = b.1 ∧ a.2 ≤ b.2)))

instance : IsTotal (ℚ × ℤ) pairLe where
  total a b := by
    rcases lt_trichotomy a.1 b.1 with h | h | h
    · exact Or.inl (Or.inl h)
    · rcases le_total a.2 b.2 with h2 | h2
      · exact Or.inl (Or.inr ⟨h, h2⟩)
      · exact Or.inr (Or.inr ⟨h.symm, h2⟩)
    · exact Or.inr (Or.inl h)

instance : IsTrans (ℚ × ℤ) pairLe where
  trans a b c hab hbc := by
    rcases hab with hab | ⟨hab, hab2⟩
    · rcases hbc with hbc | ⟨hbc, _⟩
      · exact Or.inl (lt_trans hab hbc)
      · exact Or.inl (hbc ▸ hab)
    · rcases hbc with hbc | ⟨hbc, hbc2⟩
      · exact Or.inl (hab ▸ hbc)
      · exact Or.inr ⟨hab.trans hbc, le_trans hab2 hbc2⟩

/-- Value of `std::numeric_limits<float>::max()` used to pad shortfall slots
(simple_vector_index.h line 197), as an exact rational. -/
def floatMax : ℚ := 2 ^ 128 - 2 ^ 104

/-- Value of `sizeof(float)` in bytes. -/
def elementSize : ℕ := 4

/-- The candidate list one query row produces: the inner loop at
simple_vector_index.h lines 159-182 visits stored rows `0 ≤ i < num_vectors_`
in order, skips rows for which `bitset.test(i)` holds, and otherwise appends
the pair `(distance, i)`. -/
def candidates (st : SVState) (bitset : ℕ → Bool) (query : List ℚ) : List (ℚ × ℤ) :=
  (List.range st.num_vectors).filterMap fun i =>
    if bitset i then none
    else some (metricDistance st.metric_type query (storedRow st i), (i : ℤ))

/-- One result row of Search (simple_vector_index.h lines 184-198):
`valid_k = min(k, candidates.size())` smallest pairs in ascending
`(distance, index)` order, followed by `k - valid_k` padding slots holding
identifier `-1` and `std::numeric_limits<float>::max()`. -/
def searchRow (st : SVState) (bitset : ℕ → Bool) (k : ℕ) (query : List ℚ) :
    List (ℚ × ℤ) :=
  let cand := candidates st bitset query
  let validK := min k cand.length
  (List.insertionSort pairLe cand).take validK ++
    List.replicate (k - validK) (floatMax, (-1 : ℤ))

/-- Result dataset of Search: `SetRows(nq)`, `SetDim(k)` and the per-query
rows of `(distance, id)` pairs (the C++ stores the ids and distances in two
parallel `nq × k` buffers). -/
structure SearchOut where
  rows : ℕ
  dim : ℕ
  data : List (List (ℚ × ℤ))
deriving DecidableEq, Repr

/-- SimpleVectorIndex::Search (simple_vector_index.h lines 119-212): raw-data
check, dimension check against `dim_`, the empty-index short-circuit
returning a `dim = 0` result with no id/distance buffers, and otherwise one
`searchRow` per query row (query `q` reads the `dim_` floats at offset
`q * dim_` of the query tensor). -/
def search (st : SVState) (cfg : SVConfig) (ds : DataSetIn) (bitset : ℕ → Bool) :
    Except SvError SearchOut :=
  match ds.tensor with
  | none => .error .noRawData
  | some qdata =>
    if ds.dim ≠ st.dim then .error (.dimMismatch st.dim ds.dim)
    else if st.num_vectors = 0 then .ok ⟨ds.rows, 0, []⟩
    else .ok ⟨ds.rows, cfg.k, (List.range ds.rows).map fun q =>
      searchRow st bitset cfg.k ((qdata.drop (q * st.dim)).take st.dim)⟩

/-- Specification predicate for one Search result row, stated against the
candidate list (surviving stored rows) the row was drawn from: the row has
exactly `k` slots; its valid prefix of `min k (number of surviving
candidates)` slots is sorted ascending in the lexicographic
`(distance, index)` order (so distances ascend, ties broken by ascending
stored-row index), carries pairwise-distinct identifiers, and each valid slot
holds the identifier of a surviving stored row together with its exact
metric distance — under metric "L2" the sum of squared per-dimension
differences; every slot past the valid prefix holds identifier `-1` and the
maximum representable float; and when nothing is excluded and `k ≤ N` the
whole row is valid: `k` pairwise-distinct identifiers in sorted order. -/
def searchRowSpec (st : SVState) (bitset : ℕ → Bool) (k : ℕ) (query : List ℚ)
    (row : List (ℚ × ℤ)) : Prop :=
  row.length = k ∧
  List.Sorted pairLe (row.take (min k (candidates st bitset query).length)) ∧
  ((row.take (min k (candidates st bitset query).length)).map Prod.snd).Nodup ∧
  (∀ p ∈ row.take (min k (candidates st bitset query).length),
    ∃ i, i < st.num_vectors ∧ bitset i = false ∧ p.2 = (i : ℤ) ∧
      p.1 = metricDistance st.metric_type query (storedRow st i) ∧
      (st.metric_type = "L2" → p.1 = l2Distance query (storedRow st i))) ∧
  row.drop (min k (candidates st bitset query).length) =
    List.replicate (k - min k (candidates st bitset query).length)
      (floatMax, (-1 : ℤ)) ∧
  ((∀ i < st.num_vectors, bitset i = false) → k ≤ st.num_vectors →
    (row.map Prod.snd).Nodup ∧ List.Sorted pairLe row)

/-- SimpleVectorIndex::Build (simple_vector_index.h lines 86-116): raw-data
check, dimension check against the configured `dim`, then the state is
replaced wholesale — `dim_` and `metric_type_` from dataset/config and
`vectors_` holding the first `rows × dim` floats of the tensor (the
`memcpy` at line 110 copies exactly `rows * dim * sizeof(float)` bytes). -/
def build (_st : SVState) (cfg : SVConfig) (ds : DataSetIn) : Except SvError SVState :=
  match ds.tensor with
  | none => .error .noRawData
  | some data =>
    if ds.dim ≠ cfg.dim then .error (.dimMismatch cfg.dim ds.dim)
    else .ok ⟨data.take (ds.rows * ds.dim), ds.rows, ds.dim, cfg.metric_type⟩

/-- Blobs stored in a `BinarySet` by the SimpleVector index: the `meta` key
holds the JSON record `{num_vectors, dim, metric_type}` (kept structured here;
its JSON dump/parse round-trip is lossless for two integers and a string) and
the `vectors` key holds raw float bytes, modelled as the float list. -/
inductive Blob where
  | metaBlob (num_vectors dim : ℕ) (metric : String)
  | vecBlob (data : List ℚ)
deriving DecidableEq, Repr

/-- A BinarySet: a mapping from string key to blob, with `GetByName` as
association-list lookup. -/
abbrev BinarySet := List (String × Blob)

/-- SimpleVectorIndex::Serialize (simple_vector_index.h lines 274-290):
appends the `meta` record, and appends a `vectors` blob of exactly
`num_vectors_ * dim_ * sizeof(float)` bytes (that many floats of `vectors_`)
when and only when `num_vectors_ > 0`. -/
def serialize (st : SVState) : BinarySet :=
  [("meta", Blob.metaBlob st.num_vectors st.dim st.metric_type)] ++
    (if 0 < st.num_vectors then
      [("vectors", Blob.vecBlob (st.vectors.take (st.num_vectors * st.dim)))]
    else [])

/-- SimpleVectorIndex::Deserialize (simple_vector_index.h lines 292-321):
reads `meta` (missing → error, state untouched), overwrites `num_vectors_`,
`dim_`, `metric_type_` from it, and only then — when the new count is
positive — looks for `vectors` (missing → error, with the three fields
already overwritten and the old `vectors_` left in place); on success
`vectors_` is resized to `num_vectors_ * dim_` floats copied from the blob.
The mutated state is returned alongside the status because the C++ mutates
`this` in place on the error path as well. -/
def deserialize (st : SVState) (bs : BinarySet) : Option SvError × SVState :=
  match List.lookup "meta" bs with
  | none => (some (.missingKey "meta"), st)
  | some (.vecBlob _) => (some .blobTypeUnmodeled, st)
  | some (.metaBlob n d m) =>
    let st1 : SVState := { st with num_vectors := n, dim := d, metric_type := m }
    if 0 < n then
      match List.lookup "vectors" bs with
      | none => (some (.missingKey "vectors"), st1)
      | some (.metaBlob _ _ _) => (some .blobTypeUnmodeled, st1)
      | some (.vecBlob data) => (none, { st1 with vectors := data.take (n * d) })
    else (none, st1)

/-- SimpleVectorIndex::GetVectorByIds (simple_vector_index.h lines 226-252):
walks the requested ids in order; the first id outside `[0, num_vectors_)`
fails with the out-of-range error naming that id, otherwise the `dim_` floats
of each requested stored row are concatenated in request order. -/
def getVectorByIds (st : SVState) : List ℤ → Except SvError (List ℚ)
  | [] => .ok []
  | id :: rest =>
    if id < 0 ∨ (st.num_vectors : ℤ) ≤ id then
      .error (.idOutOfRange id st.num_vectors)
    else (getVectorByIds st rest).map (fun tl => storedRow st id.toNat ++ tl)

namespace Loader

/-- Host-side expected ABI version: `KNOWHERE_PLUGIN_API_VERSION`
(plugin_interface.h line 19). -/
def KNOWHERE_PLUGIN_API_VERSION : ℕ := 1

/-- PluginInfo descriptor record (plugin_interface.h lines 24-31). -/
structure PluginInfo where
  name : String
  version : String
  author : String
  description : String
  license : String
  api_version : ℕ
deriving DecidableEq, Repr

/-- A module-provided `IPluginFactory` object, as far as the loader claims
need it: the descriptor its `GetPluginInfo()` reports. -/
structure FactoryM where
  info : PluginInfo
deriving DecidableEq, Repr

/-- A module-provided `IPluginLifecycle` object: whether its `OnLoad` /
`OnUnload` hooks report success. -/
structure LifecycleM where
  onLoadOk : Bool
  onUnloadOk : Bool
deriving DecidableEq, Repr

/-- Behaviour of one loadable binary at the loader's boundary: whether
`dlopen` succeeds, which of the fixed exported symbols `dlsym` resolves
(`none` = symbol absent), and what the resolved entry points return
(`some none` = the entry point exists but returns null). -/
structure PluginModule where
  openable : Bool
  version_export : Option ℕ
  create_export : Option (Option FactoryM)
  destroy_export : Bool
  lifecycle_export : Option (Option LifecycleM)
deriving DecidableEq, Repr

/-- A `LoadedPlugin` record (plugin_loader.h lines 24-30).  The C++ holds
`factory` and `lifecycle` in `std::unique_ptr` members, so destroying this
record host-deletes both objects (in reverse declaration order: `lifecycle`
first, then `factory`). -/
structure LoadedPlugin where
  path : String
  factory : FactoryM
  lifecycle : Option LifecycleM
  info : PluginInfo
deriving DecidableEq, Repr

/-- Observable boundary actions the loader performs while loading/unloading,
in program order.  `hostDeleteFactory` / `hostDeleteLifecycle` are the
`std::unique_ptr` deleters running host-side `delete` on the module-created
objects (they are NOT calls through `DestroyKnowherePluginFactory`, which has
its own event `callDestroyFactoryExport`). -/
inductive Event where
  | dlopenEv
  | dlcloseEv
  | callCreateFactory
  | callDestroyFactoryExport
  | callOnLoad
  | callOnUnload
  | hostDeleteFactory
  | hostDeleteLifecycle
deriving DecidableEq, Repr

/-- Status values of the loader calls.  Every constructor other than
`success` is one distinct `Status::invalid_args` / `invalid_args_in_format`
return site of plugin_loader.h; the constructor names follow the
specification's error taxonomy for those sites. -/
inductive LStatus where
  | success
  /-- plugin_loader.h line 75: path already tracked -/
  | alreadyLoaded
  /-- plugin_loader.h line 81: `dlopen` failed -/
  | dlopenFailed
  /-- plugin_loader.h line 89: `GetKnowherePluginAPIVersion` missing -/
  | missingVersionExport
  /-- plugin_loader.h lines 95-96: reported API version differs from the
  host's expected version -/
  | abiMismatch (expected got : ℕ)
  /-- plugin_loader.h line 105: create/destroy factory export missing -/
  | missingFactoryExports
  /-- plugin_loader.h line 112: `CreateKnowherePluginFactory` returned null -/
  | factoryCreateFailed
  /-- plugin_loader.h line 45: the plugin directory does not exist -/
  | dirMissing
  /-- plugin_loader.h line 155: unload of an unknown plugin name -/
  | notFoundName (name : String)
  /-- plugin_loader.h line 161: name map and path map disagree -/
  | inconsistentMaps
deriving DecidableEq, Repr

/-- State of the `PluginLoader` singleton: `loaded_plugins_` (path → plugin)
and `plugin_names_` (name → path) (plugin_loader.h lines 229-230), as
association lists with map semantics (insert overwrites, erase removes the
key's entry). -/
structure LoaderState where
  loaded_plugins : List (String × LoadedPlugin)
  plugin_names : List (String × String)
deriving DecidableEq, Repr

/-- The loader before any load: both maps empty. -/
def LoaderState.init : LoaderState := ⟨[], []⟩

/-- Map update `m[k] = v` (overwrites any previous binding of `k`). -/
def insertKey {α : Type} (k : String) (v : α) (l : List (String × α)) :
    List (String × α) :=
  (k, v) :: l.filter (fun p => p.1 ≠ k)

/-- Map erase `m.erase(k)`. -/
def eraseKey {α : Type} (k : String) (l : List (String × α)) :
    List (String × α) :=
  l.filter (fun p => p.1 ≠ k)

/-- PluginLoader::LoadPlugin (plugin_loader.h lines 68-148), returning the
new loader state, the status, and the ordered boundary events.  The sequence
follows the source exactly: already-loaded check, `dlopen`, resolve the
version export (missing → `dlclose`, fail), compare the reported version
(mismatch → `dlclose`, fail), resolve both factory exports (either missing →
`dlclose`, fail), call `CreateKnowherePluginFactory` (null → `dlclose`,
fail), read the descriptor, optionally obtain the lifecycle object and call
its `OnLoad` (a failed hook is only logged), then store the `LoadedPlugin`
under its path and index it by descriptor name. -/
def loadPlugin (st : LoaderState) (path : String) (m : PluginModule) :
    LoaderState × LStatus × List Event :=
  if (List.lookup path st.loaded_plugins).isSome then (st, .alreadyLoaded, [])
  else if ¬m.openable then (st, .dlopenFailed, [])
  else
    match m.version_export with
    | none => (st, .missingVersionExport, [.dlopenEv, .dlcloseEv])
    | some v =>
      if v ≠ KNOWHERE_PLUGIN_API_VERSION then
        (st, .abiMismatch KNOWHERE_PLUGIN_API_VERSION v, [.dlopenEv, .dlcloseEv])
      else
        match m.create_export with
        | none => (st, .missingFactoryExports, [.dlopenEv, .dlcloseEv])
        | some fac? =>
          if ¬m.destroy_export then (st, .missingFactoryExports, [.dlopenEv, .dlcloseEv])
          else
            match fac? with
            | none => (st, .factoryCreateFailed, [.dlopenEv, .callCreateFactory, .dlcloseEv])
            | some fac =>
              let lc : Option LifecycleM :=
                match m.lifecycle_export with
                | none => none
                | some lc? => lc?
              let evLoad : List Event :=
                match m.lifecycle_export with
                | some (some _) => [.callOnLoad]
                | _ => []
              ({ loaded_plugins :=
                   insertKey path ⟨path, fac, lc, fac.info⟩ st.loaded_plugins,
                 plugin_names := insertKey fac.info.name path st.plugin_names },
               .success, [.dlopenEv, .callCreateFactory] ++ evLoad)

/-- PluginLoader::UnloadPlugin (plugin_loader.h lines 151-178): name lookup
(unknown → fail), path lookup, `OnUnload` if a lifecycle object is held, then
`dlclose(handle)`, then both map entries are erased — and erasing the
`LoadedPlugin` runs the `std::unique_ptr` destructors, host-deleting the
lifecycle object (if any) and the factory object after the handle is already
closed.  `DestroyKnowherePluginFactory` is never invoked. -/
def unloadPlugin (st : LoaderState) (name : String) :
    LoaderState × LStatus × List Event :=
  match List.lookup name st.plugin_names with
  | none => (st, .notFoundName name, [])
  | some path =>
    match List.lookup path st.loaded_plugins with
    | none => (st, .inconsistentMaps, [])
    | some p =>
      let evUnload : List Event := if p.lifecycle.isSome then [.callOnUnload] else []
      let evDelLc : List Event := if p.lifecycle.isSome then [.hostDeleteLifecycle] else []
      ({ loaded_plugins := eraseKey path st.loaded_plugins,
         plugin_names := eraseKey name st.plugin_names },
       .success,
       evUnload ++ [.dlcloseEv] ++ evDelLc ++ [.hostDeleteFactory])

/-- PluginLoader::UnloadAll (plugin_loader.h lines 207-217): for every
tracked plugin `OnUnload` (if held) then `dlclose`; afterwards clearing the
maps runs every `LoadedPlugin` destructor, host-deleting each held lifecycle
and factory object. -/
def unloadAll (st : LoaderState) : LoaderState × List Event :=
  (LoaderState.init,
   (st.loaded_plugins.flatMap fun p =>
      (if p.2.lifecycle.isSome then [Event.callOnUnload] else []) ++ [Event.dlcloseEv]) ++
   (st.loaded_plugins.flatMap fun p =>
      (if p.2.lifecycle.isSome then [Event.hostDeleteLifecycle] else []) ++
        [Event.hostDeleteFactory]))

/-- PluginLoader::GetPluginFactory (plugin_loader.h lines 181-194). -/
def getPluginFactory (st : LoaderState) (name : String) : Option FactoryM :=
  match List.lookup name st.plugin_names with
  | none => none
  | some path => (List.lookup path st.loaded_plugins).map (fun p => p.factory)

/-- PluginLoader::ListPlugins (plugin_loader.h lines 197-204). -/
def listPlugins (st : LoaderState) : List PluginInfo :=
  st.loaded_plugins.map (fun p => p.2.info)

/-- One directory entry seen by the `std::filesystem::directory_iterator`
scan: its path, whether it is a regular file, its extension, and the module
behaviour behind it. -/
structure DirEntry where
  path : String
  is_regular : Bool
  ext : String
  module : PluginModule
deriving DecidableEq, Repr

/-- Recognised dynamic-library extensions (plugin_loader.h line 53). -/
def dylibExts : List String := [".so", ".dylib", ".dll"]

/-- The scan loop of LoadPluginsFromDirectory (plugin_loader.h lines 50-61):
each regular file with a recognised extension is fed to `LoadPlugin`, whose
status is logged and otherwise discarded — a failed load never stops the
scan. -/
def loadDirGo (st : LoaderState) : List DirEntry → LoaderState
  | [] => st
  | e :: rest =>
    if e.is_regular ∧ e.ext ∈ dylibExts then
      loadDirGo (loadPlugin st e.path e.module).1 rest
    else loadDirGo st rest

/-- PluginLoader::LoadPluginsFromDirectory (plugin_loader.h lines 41-65): a
missing directory logs a warning and returns `Status::invalid_args`;
otherwise the scan runs and the call returns success unconditionally. -/
def loadPluginsFromDirectory (dirExists : Bool) (entries : List DirEntry)
    (st : LoaderState) : LoaderState × LStatus :=
  if dirExists then (loadDirGo st entries, .success) else (st, .dirMissing)

/-- Status flow of PluginFactory::LoadAndRegisterPlugins (plugin_factory.h
lines 113-131): the directory-scan status is propagated if it is a failure;
registration failures of individual plugins are only logged, so on a
successful scan the call returns success. -/
def loadAndRegisterPlugins (dirExists : Bool) (entries : List DirEntry)
    (st : LoaderState) : LoaderState × LStatus :=
  let r := loadPluginsFromDirectory dirExists entries st
  if r.2 = .success then (r.1, .success) else r

/-- Descriptor the SimpleVector example plugin reports
(plugin_export.cc lines 23-31). -/
def svInfo : PluginInfo :=
  ⟨"SimpleVector", "1.0.0", "Knowhere Example",
   "A simple brute-force vector search plugin", "MIT", 1⟩

/-- Boundary behaviour of the SimpleVector example plugin
(plugin_export.cc lines 57-80): all four exports present, factory creation
succeeds, and `GetKnowherePluginLifecycle` returns a non-null pointer to a
static object whose hooks succeed. -/
def svModule : PluginModule :=
  ⟨true, some 1, some (some ⟨svInfo⟩), true, some (some ⟨true, true⟩)⟩

/-- A module identical to the SimpleVector one except that it reports API
version 2 while the host expects 1. -/
def badVersionModule : PluginModule :=
  ⟨true, some 2, some (some ⟨svInfo⟩), true, some (some ⟨true, true⟩)⟩

/-- Loader state after successfully loading the SimpleVector module into a
fresh loader. -/
def svLoaded : LoaderState :=
  (loadPlugin LoaderState.init "libsimple_vector_plugin.so" svModule).1

/-- Result (state, status, events) of unloading the SimpleVector plugin from
`svLoaded`. -/
def svUnloadRes : LoaderState × LStatus × List Event :=
  unloadPlugin svLoaded "SimpleVector"

end Loader

/-! ### Claim theorems -/

/-- Helper: reading `mcnt` consecutive ids starting at `a` recovers the
corresponding contiguous slice of the flattened vector storage. -/
theorem getVectorByIds_consecutive (st : SVState) :
    ∀ (mcnt a : ℕ), a + mcnt ≤ st.num_vectors →
      getVectorByIds st ((List.range' a mcnt).map (fun (i : ℕ) => (i : ℤ))) =
        .ok ((st.vectors.drop (a * st.dim)).take (mcnt * st.dim)) := by
  intro mcnt
  induction mcnt with
  | zero => intro a _; simp [getVectorByIds]
  | succ mm ih =>
    intro a ha
    have hcond : ¬((a : ℤ) < 0 ∨ (st.num_vectors : ℤ) ≤ (a : ℤ)) := by
      push_neg
      omega
    rw [List.range'_succ, List.map_cons]
    have hrec := ih (a + 1) (by omega)
    simp only [getVectorByIds, hcond, if_false, hrec, Except.map, Int.toNat_natCast]
    congr 1
    rw [storedRow]
    rw [show (mm + 1) * st.dim = st.dim + mm * st.dim by ring, List.take_add]
    congr 1
    rw [List.drop_drop]
    congr 2
    ring

/-- Helper: deserialising a binary set holding a positive-count meta record
and a vector blob reconstructs exactly the recorded count, dimension, metric
and the first `n * d` floats of the blob. -/
theorem deserialize_meta_and_vectors (st : SVState) (n d : ℕ) (m : String)
    (v : List ℚ) (hpos : 0 < n) :
    deserialize st [("meta", Blob.metaBlob n d m), ("vectors", Blob.vecBlob v)] =
      (none, ⟨v.take (n * d), n, d, m⟩) := by
  have hm : List.lookup "meta"
      [("meta", Blob.metaBlob n d m), ("vectors", Blob.vecBlob v)] =
      some (Blob.metaBlob n d m) := rfl
  have hv : List.lookup "vectors"
      [("meta", Blob.metaBlob n d m), ("vectors", Blob.vecBlob v)] =
      some (Blob.vecBlob v) := rfl
  simp [deserialize, hm, hv, hpos]

/-- C2: building an index from `N > 0` vectors of dimension `D`, serialising
it, and deserialising the produced binary set into a fresh instance yields
`Count() = N`, `Dim() = D`, and `GetVectorByIds` over all `N` ids returning
exactly the originally built vectors. -/
theorem build_serialize_deserialize_roundtrip (st0 : SVState) (cfg : SVConfig)
    (ds : DataSetIn) (data : List ℚ)
    (hraw : ds.tensor = some data)
    (hdim : ds.dim = cfg.dim)
    (hlen : data.length = ds.rows * ds.dim)
    (hpos : 0 < ds.rows) :
    ∃ st : SVState, build st0 cfg ds = .ok st ∧
      (deserialize SVState.init (serialize st)).1 = none ∧
      (deserialize SVState.init (serialize st)).2.Count = ds.rows ∧
      (deserialize SVState.init (serialize st)).2.Dim = ds.dim ∧
      getVectorByIds (deserialize SVState.init (serialize st)).2
        ((List.range ds.rows).map (fun (i : ℕ) => (i : ℤ))) = .ok data := by
  have htake : data.take (ds.rows * ds.dim) = data :=
    List.take_of_length_le (le_of_eq hlen)
  have hbuild : build st0 cfg ds =
      .ok ⟨data, ds.rows, ds.dim, cfg.metric_type⟩ := by
    simp only [build, hraw]
    rw [if_neg (show ¬ds.dim ≠ cfg.dim by simp [hdim]), htake]
  refine ⟨⟨data, ds.rows, ds.dim, cfg.metric_type⟩, hbuild, ?_⟩
  have hser : serialize ⟨data, ds.rows, ds.dim, cfg.metric_type⟩ =
      [("meta", Blob.metaBlob ds.rows ds.dim cfg.metric_type),
       ("vectors", Blob.vecBlob data)] := by
    simp [serialize, hpos, htake]
  rw [hser, deserialize_meta_and_vectors SVState.init ds.rows ds.dim
    cfg.metric_type data hpos]
  refine ⟨rfl, rfl, rfl, ?_⟩
  have hfinal := getVectorByIds_consecutive
    ⟨data.take (ds.rows * ds.dim), ds.rows, ds.dim, cfg.metric_type⟩
    ds.rows 0 (by simp)
  rw [List.range_eq_range']
  rw [hfinal]
  simp [htake, ← hlen]

/-- Witness for `build_serialize_deserialize_roundtrip`: two 2-dimensional
vectors survive the Build → Serialize → Deserialize → GetVectorByIds
round-trip bit-for-bit. -/
theorem build_serialize_deserialize_roundtrip_witness :
    ∃ st : SVState,
      build SVState.init ⟨2, "L2", 10⟩ ⟨2, 2, some [1, 2, 3, 4]⟩ = .ok st ∧
      (deserialize SVState.init (serialize st)).1 = none ∧
      (deserialize SVState.init (serialize st)).2.Count = 2 ∧
      (deserialize SVState.init (serialize st)).2.Dim = 2 ∧
      getVectorByIds (deserialize SVState.init (serialize st)).2
        ((List.range 2).map (fun (i : ℕ) => (i : ℤ))) = .ok [1, 2, 3, 4] :=
  build_serialize_deserialize_roundtrip SVState.init ⟨2, "L2", 10⟩
    ⟨2, 2, some [1, 2, 3, 4]⟩ [1, 2, 3, 4] rfl rfl (by decide) (by decide)

/-- C9: Serialize populates the binary set with a `meta` key holding the
structured `{count, dim, metric}` record, and adds the raw-vector-bytes
`vectors` key if and only if `count > 0`, that blob holding exactly
`count * dim` floats, i.e. `count * dim * elementSize` bytes. -/
theorem serialize_meta_and_vectors (st : SVState)
    (hlen : st.vectors.length = st.num_vectors * st.dim) :
    List.lookup "meta" (serialize st) =
      some (Blob.metaBlob st.num_vectors st.dim st.metric_type) ∧
    ((List.lookup "vectors" (serialize st)).isSome ↔ 0 < st.num_vectors) ∧
    (∀ b, List.lookup "vectors" (serialize st) = some b →
      ∃ d, b = Blob.vecBlob d ∧
        d.length * elementSize = st.num_vectors * st.dim * elementSize) := by
  by_cases h : 0 < st.num_vectors
  · have hs : serialize st =
        [("meta", Blob.metaBlob st.num_vectors st.dim st.metric_type),
         ("vectors", Blob.vecBlob (st.vectors.take (st.num_vectors * st.dim)))] := by
      simp [serialize, h]
    have hvec : List.lookup "vectors" (serialize st) =
        some (Blob.vecBlob (st.vectors.take (st.num_vectors * st.dim))) := by
      rw [hs]; rfl
    refine ⟨by rw [hs]; rfl, ?_, ?_⟩
    · rw [hvec]; simp [h]
    · intro b hb
      rw [hvec] at hb
      simp only [Option.some.injEq] at hb
      refine ⟨st.vectors.take (st.num_vectors * st.dim), hb.symm, ?_⟩
      simp [List.length_take, hlen]
  · have hs : serialize st =
        [("meta", Blob.metaBlob st.num_vectors st.dim st.metric_type)] := by
      simp [serialize, h]
    have hvec : List.lookup "vectors" (serialize st) = none := by
      rw [hs]; rfl
    refine ⟨by rw [hs]; rfl, ?_, ?_⟩
    · rw [hvec]; simp [h]
    · intro b hb
      rw [hvec] at hb
      simp at hb

/-- Witness for `serialize_meta_and_vectors` at a concrete two-vector
one-dimensional index. -/
theorem serialize_meta_and_vectors_witness :
    List.lookup "meta" (serialize ⟨[3, 5], 2, 1, "L2"⟩) =
      some (Blob.metaBlob 2 1 "L2") ∧
    ((List.lookup "vectors" (serialize ⟨[3, 5], 2, 1, "L2"⟩)).isSome ↔
      0 < (2 : ℕ)) ∧
    (∀ b, List.lookup "vectors" (serialize ⟨[3, 5], 2, 1, "L2"⟩) = some b →
      ∃ d, b = Blob.vecBlob d ∧ d.length * elementSize = 2 * 1 * elementSize) :=
  serialize_meta_and_vectors ⟨[3, 5], 2, 1, "L2"⟩ (by decide)

/-- C10: deserialising a binary set whose `meta` blob reports a positive
count but which lacks the `vectors` blob fails naming the missing `vectors`
key, with the instance's count, dimension and metric already overwritten by
the new metadata values (only the old vector storage survives; the prior
scalar fields are not restored). -/
theorem deserialize_missing_vectors_mutates (st : SVState) (bs : BinarySet)
    (n d : ℕ) (m : String)
    (hmeta : List.lookup "meta" bs = some (Blob.metaBlob n d m))
    (hpos : 0 < n)
    (hvec : List.lookup "vectors" bs = none) :
    deserialize st bs =
      (some (.missingKey "vectors"),
       { st with num_vectors := n, dim := d, metric_type := m }) := by
  simp [deserialize, hmeta, hvec, hpos]

/-- Witness for `deserialize_missing_vectors_mutates`: a prior one-vector
"IP" state fed a meta-only binary set ends up reporting the new count 2,
dimension 3 and metric "L2" alongside the missing-key error. -/
theorem deserialize_missing_vectors_mutates_witness :
    deserialize ⟨[7], 1, 1, "IP"⟩ [("meta", Blob.metaBlob 2 3 "L2")] =
      (some (.missingKey "vectors"), ⟨[7], 2, 3, "L2"⟩) :=
  deserialize_missing_vectors_mutates ⟨[7], 1, 1, "IP"⟩
    [("meta", Blob.metaBlob 2 3 "L2")] 2 3 "L2" (by decide) (by decide) (by decide)

/-- C8: GetVectorByIds succeeds (returning the requested stored rows
concatenated in request order) when every requested id lies in
`[0, count)`, fails with the out-of-range error naming the first
out-of-range id otherwise, and in particular `GetVectorByIds([5])` on an
index with `count = 3` fails naming id 5 and count 3. -/
theorem getVectorByIds_range_check (st : SVState) (ids : List ℤ) :
    ((∀ id ∈ ids, 0 ≤ id ∧ id < (st.num_vectors : ℤ)) →
      getVectorByIds st ids =
        .ok ((ids.map (fun id => storedRow st id.toNat)).flatten)) ∧
    (∀ pre id rest, ids = pre ++ id :: rest →
      (∀ j ∈ pre, 0 ≤ j ∧ j < (st.num_vectors : ℤ)) →
      (id < 0 ∨ (st.num_vectors : ℤ) ≤ id) →
      getVectorByIds st ids = .error (.idOutOfRange id st.num_vectors)) ∧
    (st.num_vectors = 3 →
      getVectorByIds st [5] = .error (.idOutOfRange 5 3)) := by
  refine ⟨?_, ?_, ?_⟩
  · intro h
    induction ids with
    | nil => simp [getVectorByIds]
    | cons id rest ih =>
      have hid := h id (List.mem_cons_self id rest)
      have hcond : ¬(id < 0 ∨ (st.num_vectors : ℤ) ≤ id) := by
        push_neg
        exact hid
      have := ih (fun j hj => h j (List.mem_cons_of_mem _ hj))
      simp [getVectorByIds, hcond, this, Except.map]
  · intro pre id rest heq hpre hid
    subst heq
    induction pre with
    | nil =>
      simp only [List.nil_append]
      simp [getVectorByIds, hid]
    | cons j pre ih =>
      have hj := hpre j (List.mem_cons_self j pre)
      have hcond : ¬(j < 0 ∨ (st.num_vectors : ℤ) ≤ j) := by
        push_neg
        exact hj
      have := ih (fun x hx => hpre x (List.mem_cons_of_mem _ hx))
      simp [getVectorByIds, hcond, this, Except.map]
  · intro h3
    simp [getVectorByIds, h3]

/-- Witness for `getVectorByIds_range_check` on a concrete three-vector
two-dimensional index: in-range ids `[0, 2]` recover the first and third
stored rows, and id 5 fails naming 5 and count 3. -/
theorem getVectorByIds_range_check_witness :
    getVectorByIds ⟨[1, 2, 3, 4, 5, 6], 3, 2, "L2"⟩ [0, 2] = .ok [1, 2, 5, 6] ∧
    getVectorByIds ⟨[1, 2, 3, 4, 5, 6], 3, 2, "L2"⟩ [5] =
      .error (.idOutOfRange 5 3) := by
  refine ⟨?_, ?_⟩
  · have h :=
      (getVectorByIds_range_check ⟨[1, 2, 3, 4, 5, 6], 3, 2, "L2"⟩ [0, 2]).1
        (by decide)
    rw [h]
    rfl
  · exact (getVectorByIds_range_check ⟨[1, 2, 3, 4, 5, 6], 3, 2, "L2"⟩ [5]).2.2
      rfl

/-- C3: loading a module whose reported API version differs from the host's
expected version leaves the loader state untouched, fails with the ABI
mismatch error, performs exactly a `dlopen` immediately followed by a
`dlclose` (no other symbol is used), and afterwards the module's name is
absent from `ListPlugins` and `GetPluginFactory` for it returns null. -/
theorem loadPlugin_abi_mismatch (st : Loader.LoaderState) (path : String)
    (m : Loader.PluginModule) (v : ℕ) (nm : String)
    (hfresh : List.lookup path st.loaded_plugins = none)
    (hopen : m.openable = true)
    (hv : m.version_export = some v)
    (hne : v ≠ Loader.KNOWHERE_PLUGIN_API_VERSION)
    (hnm : Loader.getPluginFactory st nm = none)
    (hlist : ∀ info ∈ Loader.listPlugins st, info.name ≠ nm) :
    Loader.loadPlugin st path m =
      (st, .abiMismatch Loader.KNOWHERE_PLUGIN_API_VERSION v,
        [.dlopenEv, .dlcloseEv]) ∧
    Loader.getPluginFactory (Loader.loadPlugin st path m).1 nm = none ∧
    (∀ info ∈ Loader.listPlugins (Loader.loadPlugin st path m).1,
      info.name ≠ nm) := by
  have h1 : Loader.loadPlugin st path m =
      (st, .abiMismatch Loader.KNOWHERE_PLUGIN_API_VERSION v,
        [.dlopenEv, .dlcloseEv]) := by
    simp [Loader.loadPlugin, hfresh, hopen, hv, hne]
  exact ⟨h1, by rw [h1]; exact hnm, by rw [h1]; exact hlist⟩

/-- Witness for `loadPlugin_abi_mismatch`: loading the version-2 module into
a fresh loader. -/
theorem loadPlugin_abi_mismatch_witness :
    Loader.loadPlugin Loader.LoaderState.init "bad.so" Loader.badVersionModule =
      (Loader.LoaderState.init,
        .abiMismatch Loader.KNOWHERE_PLUGIN_API_VERSION 2,
        [.dlopenEv, .dlcloseEv]) ∧
    Loader.getPluginFactory
      (Loader.loadPlugin Loader.LoaderState.init "bad.so"
        Loader.badVersionModule).1 "SimpleVector" = none ∧
    (∀ info ∈ Loader.listPlugins
        (Loader.loadPlugin Loader.LoaderState.init "bad.so"
          Loader.badVersionModule).1,
      info.name ≠ "SimpleVector") :=
  loadPlugin_abi_mismatch Loader.LoaderState.init "bad.so"
    Loader.badVersionModule 2 "SimpleVector" (by decide) (by decide) (by decide)
    (by decide) (by decide) (by decide)

/-- C4 (code bug): unloading the loaded SimpleVector plugin succeeds, but the
unload sequence never invokes the module's `DestroyKnowherePluginFactory`
entry point — the factory object is host-deleted by the `std::unique_ptr`
destructor, and that deletion happens only after `dlclose` has already
unmapped the module. -/
theorem unload_skips_destroy_factory_export :
    (Loader.loadPlugin Loader.LoaderState.init "libsimple_vector_plugin.so"
      Loader.svModule).2.1 = .success ∧
    Loader.svUnloadRes.2.1 = .success ∧
    Loader.svUnloadRes.2.2 =
      [.callOnUnload, .dlcloseEv, .hostDeleteLifecycle, .hostDeleteFactory] ∧
    Loader.Event.callDestroyFactoryExport ∉ Loader.svUnloadRes.2.2 := by
  decide

/-- C5 (code bug): the loader does destroy the module-provided lifecycle
object — the host-side `delete` of the lifecycle runs both on unload of the
module and on loader teardown (`UnloadAll`), although the example plugin
hands out a pointer to a static object. -/
theorem unload_deletes_lifecycle_object :
    Loader.svModule.lifecycle_export = some (some ⟨true, true⟩) ∧
    Loader.Event.hostDeleteLifecycle ∈ Loader.svUnloadRes.2.2 ∧
    Loader.Event.hostDeleteLifecycle ∈ (Loader.unloadAll Loader.svLoaded).2 := by
  decide

/-- C6 counterexample: with the plugin directory absent, both
`LoadPluginsFromDirectory` and `LoadAndRegisterPlugins` return the
directory-missing `invalid_args` status, which is a hard failure, not a
success — refuting "absence of the directory is a warning, not a hard
failure". -/
theorem loadDir_absent_hard_failure :
    Loader.loadPluginsFromDirectory false [] Loader.LoaderState.init =
      (Loader.LoaderState.init, .dirMissing) ∧
    (Loader.loadAndRegisterPlugins false [] Loader.LoaderState.init).2 =
      .dirMissing ∧
    Loader.LStatus.dirMissing ≠ .success := by
  decide

/-- C6 amended: `LoadPluginsFromDirectory` (and `LoadAndRegisterPlugins` on
top of it) returns success exactly when the directory exists — individual
file failures never make it fail — while an absent directory, though logged
as a warning, returns the hard `invalid_args` failure with the loader state
untouched; a failing module earlier in the scan does not stop later modules
from loading. -/
theorem loadDir_fails_only_when_dir_missing (dirExists : Bool)
    (entries : List Loader.DirEntry) (st : Loader.LoaderState) :
    ((Loader.loadPluginsFromDirectory dirExists entries st).2 = .success ↔
      dirExists = true) ∧
    ((Loader.loadAndRegisterPlugins dirExists entries st).2 = .success ↔
      dirExists = true) ∧
    (Loader.loadPluginsFromDirectory false entries st).1 = st ∧
    Loader.getPluginFactory
        (Loader.loadPluginsFromDirectory true
          [⟨"bad.so", true, ".so", Loader.badVersionModule⟩,
           ⟨"good.so", true, ".so", Loader.svModule⟩]
          Loader.LoaderState.init).1 "SimpleVector" =
      some ⟨Loader.svInfo⟩ := by
  refine ⟨?_, ?_, ?_, ?_⟩
  · cases dirExists <;>
      simp [Loader.loadPluginsFromDirectory]
  · cases dirExists <;>
      simp [Loader.loadAndRegisterPlugins, Loader.loadPluginsFromDirectory]
  · simp [Loader.loadPluginsFromDirectory]
  · decide

/-- Helper: membership in the candidate list characterises exactly the
surviving stored rows together with their metric distances. -/
theorem mem_candidates {st : SVState} {bitset : ℕ → Bool} {query : List ℚ}
    {p : ℚ × ℤ} :
    p ∈ candidates st bitset query ↔
      ∃ i, i < st.num_vectors ∧ bitset i = false ∧
        p = (metricDistance st.metric_type query (storedRow st i), (i : ℤ)) := by
  constructor
  · intro hp
    obtain ⟨i, hi, hf⟩ := List.mem_filterMap.mp hp
    cases hbc : bitset i with
    | true => rw [hbc] at hf; simp at hf
    | false =>
      rw [hbc] at hf
      simp only [Bool.false_eq_true, if_false, Option.some.injEq] at hf
      exact ⟨i, List.mem_range.mp hi, hbc, hf.symm⟩
  · rintro ⟨i, hi, hb, rfl⟩
    exact List.mem_filterMap.mpr ⟨i, List.mem_range.mpr hi, by rw [hb]; simp⟩

/-- Helper: the identifiers in the candidate list are pairwise distinct. -/
theorem candidates_snd_nodup (st : SVState) (bitset : ℕ → Bool)
    (query : List ℚ) :
    ((candidates st bitset query).map Prod.snd).Nodup := by
  rw [candidates, List.map_filterMap]
  refine List.Nodup.filterMap ?_ (List.nodup_range st.num_vectors)
  intro a a' b hb hb'
  cases ha : bitset a with
  | true => rw [ha] at hb; simp at hb
  | false =>
    rw [ha] at hb
    simp at hb
    cases ha' : bitset a' with
    | true => rw [ha'] at hb'; simp at hb'
    | false =>
      rw [ha'] at hb'
      simp at hb'
      omega

/-- Helper: a filterMap by an everywhere-`some` function keeps the length. -/
theorem filterMap_all_some_length {α β : Type} (f : α → Option β) :
    ∀ l : List α, (∀ a ∈ l, (f a).isSome) → (l.filterMap f).length = l.length := by
  intro l
  induction l with
  | nil => intro _; rfl
  | cons a l ih =>
    intro h
    cases hfa : f a with
    | none =>
      have := h a (List.mem_cons_self a l)
      rw [hfa] at this
      simp at this
    | some b =>
      rw [List.filterMap_cons, hfa]
      simp only [List.length_cons]
      rw [ih (fun x hx => h x (List.mem_cons_of_mem _ hx))]

/-- Helper: with nothing excluded, every stored row survives, so the
candidate list has exactly `num_vectors` entries. -/
theorem candidates_length_all (st : SVState) (bitset : ℕ → Bool)
    (query : List ℚ) (hb : ∀ i < st.num_vectors, bitset i = false) :
    (candidates st bitset query).length = st.num_vectors := by
  rw [candidates]
  rw [filterMap_all_some_length _ _ ?_, List.length_range]
  intro i hi
  rw [hb i (List.mem_range.mp hi)]
  simp

/-- Helper: every Search result row satisfies the row specification. -/
theorem searchRow_meets_spec (st : SVState) (bitset : ℕ → Bool) (k : ℕ)
    (query : List ℚ) :
    searchRowSpec st bitset k query (searchRow st bitset k query) := by
  have hperm := List.perm_insertionSort pairLe (candidates st bitset query)
  have hsorted := List.sorted_insertionSort pairLe (candidates st bitset query)
  set cand := candidates st bitset query with hcand
  set L := List.insertionSort pairLe cand with hLdef
  have hLlen : L.length = cand.length := hperm.length_eq
  have htl : (L.take (min k cand.length)).length = min k cand.length := by
    rw [List.length_take]
    omega
  have hrow : searchRow st bitset k query =
      L.take (min k cand.length) ++
        List.replicate (k - min k cand.length) (floatMax, (-1 : ℤ)) := rfl
  have htake : (searchRow st bitset k query).take (min k cand.length) =
      L.take (min k cand.length) := by
    rw [hrow, List.take_left' htl]
  have hnodupL : (L.map Prod.snd).Nodup :=
    ((hperm.map Prod.snd).symm).nodup (candidates_snd_nodup st bitset query)
  refine ⟨?_, ?_, ?_, ?_, ?_, ?_⟩
  · rw [hrow, List.length_append, htl, List.length_replicate]
    omega
  · rw [htake]
    exact List.Pairwise.sublist (List.take_sublist _ _) hsorted
  · rw [htake, List.map_take]
    exact List.Nodup.sublist (List.take_sublist _ _) hnodupL
  · intro p hp
    rw [htake] at hp
    have hpc : p ∈ cand := hperm.mem_iff.mp (List.mem_of_mem_take hp)
    obtain ⟨i, hi, hb, hpe⟩ := mem_candidates.mp hpc
    refine ⟨i, hi, hb, by rw [hpe], by rw [hpe], ?_⟩
    intro hm
    rw [hpe]
    simp [metricDistance, hm]
  · rw [hrow, List.drop_left' htl]
  · intro hball hkN
    have hclen : cand.length = st.num_vectors :=
      candidates_length_all st bitset query hball
    have hrep : k - min k cand.length = 0 := by omega
    have hrow' : searchRow st bitset k query = L.take (min k cand.length) := by
      rw [hrow, hrep]
      simp
    constructor
    · rw [hrow', List.map_take]
      exact List.Nodup.sublist (List.take_sublist _ _) hnodupL
    · rw [hrow']
      exact List.Pairwise.sublist (List.take_sublist _ _) hsorted

/-- C1: on a non-empty built index, Search succeeds and returns one row per
query of exactly `k` slots, where each row's valid prefix (all `k` slots
when `k` is at most the number of surviving candidates, in particular
whenever `k ≤ N` and nothing is excluded) holds pairwise-distinct
identifiers in ascending `(distance, index)` order with each distance the
exact metric value against the identified stored row — under "L2" the sum of
squared per-dimension differences — and every slot beyond the surviving
candidates holds identifier `-1` and the maximum representable score. -/
theorem search_returns_sorted_topk (st : SVState) (cfg : SVConfig)
    (ds : DataSetIn) (bitset : ℕ → Bool) (qdata : List ℚ)
    (hraw : ds.tensor = some qdata)
    (hdim : ds.dim = st.dim)
    (_hk : 1 ≤ cfg.k)
    (hN : 1 ≤ st.num_vectors) :
    ∃ out : SearchOut,
      search st cfg ds bitset = .ok out ∧
      out.rows = ds.rows ∧ out.dim = cfg.k ∧ out.data.length = ds.rows ∧
      ∀ q, q < ds.rows →
        out.data.getD q [] =
          searchRow st bitset cfg.k ((qdata.drop (q * st.dim)).take st.dim) ∧
        searchRowSpec st bitset cfg.k ((qdata.drop (q * st.dim)).take st.dim)
          (out.data.getD q []) := by
  refine ⟨⟨ds.rows, cfg.k, (List.range ds.rows).map fun q =>
      searchRow st bitset cfg.k ((qdata.drop (q * st.dim)).take st.dim)⟩,
    ?_, rfl, rfl, by simp, ?_⟩
  · simp only [search, hraw]
    rw [if_neg (by simp [hdim]), if_neg (by omega)]
  · intro q hq
    have hget : ((List.range ds.rows).map fun q =>
        searchRow st bitset cfg.k ((qdata.drop (q * st.dim)).take st.dim)).getD
          q [] =
        searchRow st bitset cfg.k ((qdata.drop (q * st.dim)).take st.dim) := by
      rw [List.getD_eq_getElem _ _ (by simp [hq])]
      simp
    exact ⟨hget, hget ▸ searchRow_meets_spec st bitset cfg.k _⟩

/-- Witness for `search_returns_sorted_topk`: the spec's concrete scenario —
three 2-dimensional vectors `[(0,0), (1,0), (5,5)]` under "L2", query
`(0,0)`, `k = 2`, nothing excluded. -/
theorem search_returns_sorted_topk_witness :
    ∃ out : SearchOut,
      search ⟨[0, 0, 1, 0, 5, 5], 3, 2, "L2"⟩ ⟨2, "L2", 2⟩
        ⟨1, 2, some [0, 0]⟩ (fun _ => false) = .ok out ∧
      out.rows = 1 ∧ out.dim = 2 ∧ out.data.length = 1 ∧
      ∀ q, q < 1 →
        out.data.getD q [] =
          searchRow ⟨[0, 0, 1, 0, 5, 5], 3, 2, "L2"⟩ (fun _ => false) 2
            (([0, 0].drop (q * 2)).take 2) ∧
        searchRowSpec ⟨[0, 0, 1, 0, 5, 5], 3, 2, "L2"⟩ (fun _ => false) 2
          (([0, 0].drop (q * 2)).take 2) (out.data.getD q []) :=
  search_returns_sorted_topk ⟨[0, 0, 1, 0, 5, 5], 3, 2, "L2"⟩ ⟨2, "L2", 2⟩
    ⟨1, 2, some [0, 0]⟩ (fun _ => false) [0, 0] rfl rfl (by decide) (by decide)

/-- Helper: an excluded identifier is absent from a Search result row — it
cannot be among the surviving candidates, and the padding identifier is
`-1`. -/
theorem searchRow_excludes (st : SVState) (bitset : ℕ → Bool) (k : ℕ)
    (query : List ℚ) (i : ℕ) (hbit : bitset i = true) :
    ((i : ℤ)) ∉ (searchRow st bitset k query).map Prod.snd := by
  intro hmem
  have hrow : searchRow st bitset k query =
      (List.insertionSort pairLe (candidates st bitset query)).take
        (min k (candidates st bitset query).length) ++
        List.replicate (k - min k (candidates st bitset query).length)
          (floatMax, (-1 : ℤ)) := rfl
  rw [hrow, List.map_append] at hmem
  rcases List.mem_append.mp hmem with h | h
  · obtain ⟨p, hp, hps⟩ := List.mem_map.mp h
    have hpc : p ∈ candidates st bitset query :=
      (List.perm_insertionSort pairLe _).mem_iff.mp (List.mem_of_mem_take hp)
    obtain ⟨j, hj, hb, hpe⟩ := mem_candidates.mp hpc
    rw [hpe] at hps
    have hps' : (j : ℤ) = (i : ℤ) := hps
    have hji : j = i := by exact_mod_cast hps'
    rw [hji] at hb
    rw [hb] at hbit
    cases hbit
  · rw [List.map_replicate] at h
    obtain ⟨-, h2⟩ := List.mem_replicate.mp h
    omega

/-- C7: for every index state, query dataset and exclusion filter, if stored
row `i` is marked as excluded then identifier `i` never appears among the
identifiers of any row of a successful Search result. -/
theorem search_never_returns_excluded (st : SVState) (cfg : SVConfig)
    (ds : DataSetIn) (bitset : ℕ → Bool) (i : ℕ)
    (hbit : bitset i = true) :
    ∀ out, search st cfg ds bitset = .ok out →
      ∀ row ∈ out.data, ((i : ℤ)) ∉ row.map Prod.snd := by
  intro out hout row hrow
  cases htensor : ds.tensor with
  | none => simp [search, htensor] at hout
  | some qdata =>
    simp only [search, htensor] at hout
    by_cases hd : ds.dim ≠ st.dim
    · rw [if_pos hd] at hout
      simp at hout
    · rw [if_neg hd] at hout
      by_cases hz : st.num_vectors = 0
      · rw [if_pos hz] at hout
        injection hout with h
        subst h
        simp at hrow
      · rw [if_neg hz] at hout
        injection hout with h
        subst h
        obtain ⟨q, _, rfl⟩ := List.mem_map.mp hrow
        exact searchRow_excludes st bitset cfg.k _ i hbit

/-- Witness for `search_never_returns_excluded`: excluding stored row 0 —
the exact nearest neighbor of query `(0,0)` — keeps identifier 0 out of the
result. -/
theorem search_never_returns_excluded_witness :
    (fun j => decide (j = 0)) 0 = true ∧
    ∀ out, search ⟨[0, 0, 1, 0, 5, 5], 3, 2, "L2"⟩ ⟨2, "L2", 2⟩
        ⟨1, 2, some [0, 0]⟩ (fun j => decide (j = 0)) = .ok out →
      ∀ row ∈ out.data, (((0 : ℕ) : ℤ)) ∉ row.map Prod.snd :=
  ⟨rfl, search_never_returns_excluded ⟨[0, 0, 1, 0, 5, 5], 3, 2, "L2"⟩
    ⟨2, "L2", 2⟩ ⟨1, 2, some [0, 0]⟩ (fun j => decide (j = 0)) 0 rfl⟩

end KnowhereSpec
